import Mathlib

/-
Shallow embedding of the stable LLM service middleware
(src/stable_llm_service.py) for checking the specification claims.

Modelling conventions:
- Wall-clock timestamps (Python time.time, float seconds) are rationals.
- Python dicts keyed by service-name strings become total functions with an
  explicit default (failure count 0, no disabled-until entry), which matches
  the dict-with-get-default reads in the source.
- The adapter registry (self.services) is modelled by a membership predicate,
  and the outcome of dispatching the chosen method (chat or analyze) on the
  adapter registered under a key is modelled by a per-call outcome function
  (each key is dispatched at most once per orchestrated call, so a function
  from key to outcome is faithful).
- Exceptions become Except / sum results; the aggregated-failure dict and the
  reply dict become the two constructors of CallResult.
- The LoopState fields considered and calls are ghost instrumentation: they
  record, in order, the keys examined by the dispatch loop and the keys on
  which an adapter call was actually dispatched. The monitor and errors
  fields mirror the mutations performed by the source.
-/

/-! ## Rate-limit classifier (StableLLMService._is_rate_limited) -/

/-- Python str.lower restricted to the per-character lowering used here
(character-wise map over the underlying character list). -/
def lowerStr (s : String) : String := ⟨s.data.map Char.toLower⟩

/-- Python substring containment: needle in hay. -/
def containsSubstr (hay needle : String) : Bool :=
  hay.data.tails.any (fun t => needle.data.isPrefixOf t)

/-- The fixed keyword list of StableLLMService._is_rate_limited. -/
def rate_limit_keywords : List String :=
  ["rate limit", "ratelimit", "too many requests",
   "429", "quota exceeded", "capacity", "throttle"]

/-- StableLLMService._is_rate_limited: lower-case the message and test each
keyword for substring containment. -/
def _is_rate_limited (msg : String) : Bool :=
  rate_limit_keywords.any (fun kw => containsSubstr (lowerStr msg) kw)

/-! ## Service health monitor (ServiceHealthMonitor) -/

/-- State of ServiceHealthMonitor: failure_counts and disabled_until dicts
plus the two construction-time parameters. -/
structure ServiceHealthMonitor where
  failure_counts : String → Nat
  disabled_until : String → Option ℚ
  failure_threshold : Nat
  cool_down_period : ℚ

/-- ServiceHealthMonitor.is_available, with the current time passed
explicitly. Returns the boolean result together with the (possibly
auto-recovered) monitor state, since the check mutates the dicts when the
cool-down has expired. -/
def is_available (m : ServiceHealthMonitor) (now : ℚ) (service_name : String) :
    Bool × ServiceHealthMonitor :=
  match m.disabled_until service_name with
  | some t =>
      if t < now then
        (true,
          { m with
            disabled_until := fun s => if s = service_name then none else m.disabled_until s,
            failure_counts := fun s => if s = service_name then 0 else m.failure_counts s })
      else (false, m)
  | none => (true, m)

/-- ServiceHealthMonitor.record_failure, with the current time passed
explicitly: increment the count, and when the new count reaches the
threshold set disabled_until to now plus the cool-down period. -/
def record_failure (m : ServiceHealthMonitor) (now : ℚ) (service_name : String) :
    ServiceHealthMonitor :=
  { m with
    failure_counts := fun s =>
      if s = service_name then m.failure_counts service_name + 1 else m.failure_counts s,
    disabled_until :=
      if m.failure_threshold ≤ m.failure_counts service_name + 1 then
        fun s =>
          if s = service_name then some (now + m.cool_down_period) else m.disabled_until s
      else m.disabled_until }

/-- ServiceHealthMonitor.record_success: reset the failure counter to 0. -/
def record_success (m : ServiceHealthMonitor) (service_name : String) :
    ServiceHealthMonitor :=
  { m with
    failure_counts := fun s => if s = service_name then 0 else m.failure_counts s }

/-- A sequence of record_failure calls at the given times, with no
intervening record_success. -/
def record_failures (m : ServiceHealthMonitor) (key : String) : List ℚ → ServiceHealthMonitor
  | [] => m
  | t :: ts => record_failures (record_failure m t key) key ts

/-! ## Replies, outcomes and attempt errors -/

/-- The normalized reply dict produced by the adapters. -/
structure Reply where
  raw_content : String
  provider : String
  model : String
  finish_reason : Option String
deriving DecidableEq

/-- Outcome of dispatching the requested method on the adapter registered
under a key, as observed by _call_with_timeout: the future either yields a
reply before the deadline, raises an exception with some message, or the
deadline elapses first. -/
inductive CallOutcome where
  | success (r : Reply)
  | failure (msg : String)
  | timeout
deriving DecidableEq

/-- One entry of the errors list accumulated by _call_service. The source
appends plain dicts; the is_rate_limited key is present only on some of
them, hence the Option. -/
structure AttemptError where
  service : String
  error : String
  is_rate_limited : Option Bool
deriving DecidableEq

/-- The caller-visible result of _call_service: either a reply dict or the
aggregated-failure dict (distinguished in the source by the error key). -/
inductive CallResult where
  | reply (r : Reply)
  | aggregated (error : String) (details : List AttemptError) (raw_content : String)
deriving DecidableEq

/-- The orchestrator configuration relevant to one orchestrated call:
the service order, the adapter registry membership, the per-key dispatch
outcome for this call, and the timeout parameter. -/
structure StableLLMService where
  service_order : List String
  services : String → Bool
  behavior : String → CallOutcome
  service_timeout : ℚ

/-- State threaded through the dispatch loop of _call_service. The monitor
and errors fields mirror the source; considered and calls are ghost trace
fields (keys examined, and keys actually dispatched). -/
structure LoopState where
  monitor : ServiceHealthMonitor
  errors : List AttemptError
  considered : List String
  calls : List String

/-- The f-string key provider_primary or provider_fallback. -/
def keyName (provider : String) (primary : Bool) : String :=
  provider ++ (if primary then "_primary" else "_fallback")

/-- The keys produced by iterating the service order at one tier. -/
def passKeys (primary : Bool) (ps : List String) : List String :=
  ps.map (fun p => keyName p primary)

/-- The full candidate key sequence of one orchestrated call: the primary
pass followed by the fallback pass. -/
def allKeys (ps : List String) : List String :=
  passKeys true ps ++ passKeys false ps

/-- The error text recorded when a key is skipped because the circuit
breaker is open. -/
def disabledMessage : String := "服务暂时禁用（断路器已触发）"

/-- The message of the exception raised by _call_with_timeout on timeout. -/
def timeoutMessage (service_name : String) (t : ℚ) : String :=
  "服务 " ++ service_name ++ " 响应超时 (>" ++ toString t ++ "s)"

/-- The terminal error text when every service failed. -/
def allFailedMessage : String := "所有LLM服务调用都失败了"

/-- The error entry appended by _call_service when a dispatched call fails:
the primary-pass loop includes the is_rate_limited flag, the fallback-pass
loop does not. -/
def attemptEntry (primary : Bool) (service_name msg : String) : AttemptError :=
  ⟨service_name, msg, if primary then some (_is_rate_limited msg) else none⟩

/-- StableLLMService._call_with_timeout: dispatch the method on the worker
and join with the deadline. On success record a success; on timeout record
a failure and fail with the timeout message; on an adapter exception
propagate it unchanged (the monitor is not touched here in that case). -/
def _call_with_timeout (svc : StableLLMService) (m : ServiceHealthMonitor) (now : ℚ)
    (service_name : String) : Except String Reply × ServiceHealthMonitor :=
  match svc.behavior service_name with
  | CallOutcome.success r => (Except.ok r, record_success m service_name)
  | CallOutcome.timeout =>
      (Except.error (timeoutMessage service_name svc.service_timeout),
        record_failure m now service_name)
  | CallOutcome.failure msg => (Except.error msg, m)

/-- One pass of the dispatch loop of _call_service over the service order at
one tier: skip (with an error entry) keys whose breaker is open, skip
silently keys absent from the registry, otherwise dispatch; on failure
record a failure, append an entry and continue; on success stop. -/
def runPass (svc : StableLLMService) (primary : Bool) (now : ℚ) :
    List String → LoopState → LoopState ⊕ (Reply × LoopState)
  | [], s => Sum.inl s
  | p :: rest, s =>
      if (is_available s.monitor now (keyName p primary)).1 = false then
        runPass svc primary now rest
          ⟨(is_available s.monitor now (keyName p primary)).2,
           s.errors ++ [⟨keyName p primary, disabledMessage, none⟩],
           s.considered ++ [keyName p primary], s.calls⟩
      else if svc.services (keyName p primary) = false then
        runPass svc primary now rest
          ⟨(is_available s.monitor now (keyName p primary)).2, s.errors,
           s.considered ++ [keyName p primary], s.calls⟩
      else
        match (_call_with_timeout svc (is_available s.monitor now (keyName p primary)).2
            now (keyName p primary)).1 with
        | Except.ok r =>
            Sum.inr (r,
              ⟨(_call_with_timeout svc (is_available s.monitor now (keyName p primary)).2
                  now (keyName p primary)).2,
               s.errors, s.considered ++ [keyName p primary],
               s.calls ++ [keyName p primary]⟩)
        | Except.error msg =>
            runPass svc primary now rest
              ⟨record_failure
                 (_call_with_timeout svc (is_available s.monitor now (keyName p primary)).2
                   now (keyName p primary)).2 now (keyName p primary),
               s.errors ++ [attemptEntry primary (keyName p primary) msg],
               s.considered ++ [keyName p primary],
               s.calls ++ [keyName p primary]⟩

/-- StableLLMService._call_service: the primary pass over the service order,
then the fallback pass, then the aggregated failure dict. The chat and
analyze entry points both delegate here (the method name only selects which
adapter method the outcome function describes). -/
def _call_service (svc : StableLLMService) (m : ServiceHealthMonitor) (now : ℚ) :
    CallResult × LoopState :=
  match runPass svc true now svc.service_order ⟨m, [], [], []⟩ with
  | Sum.inr (r, s) => (CallResult.reply r, s)
  | Sum.inl s1 =>
      match runPass svc false now svc.service_order s1 with
      | Sum.inr (r, s) => (CallResult.reply r, s)
      | Sum.inl s2 =>
          (CallResult.aggregated allFailedMessage s2.errors
            ("服务调用失败: " ++ allFailedMessage), s2)

/-- No key in the list has a successful dispatch outcome. -/
def successFree (svc : StableLLMService) (cs : List String) : Prop :=
  ∀ k ∈ cs, ∀ r : Reply, svc.behavior k ≠ CallOutcome.success r

/-- Shape of the error entries produced by one pass: an entry either belongs
to a dispatched key (and then carries the rate-limit flag exactly when the
pass is the primary one), or is a circuit-open skip entry without the flag. -/
def entriesTagged (primary : Bool) (es : List AttemptError) (cs : List String) : Prop :=
  ∀ e ∈ es,
    (e.service ∈ cs ∧
      e.is_rate_limited = (if primary then some (_is_rate_limited e.error) else none)) ∨
    (e.service ∉ cs ∧ e.is_rate_limited = none ∧ e.error = disabledMessage)

/-! ## Construction (StableLLMService.__init__ and _default_service_order) -/

/-- The constructor arguments and environment relevant to provider
configuration. -/
structure InitArgs where
  openai_api_key : Option String
  anthropic_api_key : Option String
  gemini_api_key : Option String
  env : String → Option String
  service_order : Option (List String)

/-- Python truthiness of an optional string (None and the empty string are
falsy). -/
def pyTruthy : Option String → Bool
  | none => false
  | some s => !(s == "")

/-- Python x or y for optional strings. -/
def pyOrStr (a b : Option String) : Option String :=
  if pyTruthy a then a else b

/-- Python truthiness of the optional service_order argument (None and the
empty list are falsy). -/
def pyTruthyList : Option (List String) → Bool
  | none => false
  | some l => !l.isEmpty

/-- The provider names for which a credential is configured, in the
insertion order of self.configs (openai, anthropic, gemini); this is the
list _default_service_order computes from the primary config keys. -/
def configuredProviders (args : InitArgs) : List String :=
  (if pyTruthy (pyOrStr args.openai_api_key (args.env "OPENAI_API_KEY"))
    then ["openai"] else []) ++
  (if pyTruthy (pyOrStr args.anthropic_api_key (args.env "ANTHROPIC_API_KEY"))
    then ["anthropic"] else []) ++
  (if pyTruthy (pyOrStr args.gemini_api_key (args.env "GEMINI_API_KEY"))
    then ["gemini"] else [])

/-- The ValueError message of _default_service_order. -/
def noProviderMessage : String := "未配置任何服务提供商，请提供至少一个API密钥"

/-- The construction-relevant outcome of __init__: the configured provider
names and the resulting service order. -/
structure ConstructedService where
  providers : List String
  service_order : List String
deriving DecidableEq

/-- StableLLMService.__init__ construction logic: the service order is the
explicit argument when truthy, otherwise _default_service_order, which
raises ValueError when no provider is configured. -/
def construct (args : InitArgs) : Except String ConstructedService :=
  let provs := configuredProviders args
  match args.service_order with
  | some l =>
      if l.isEmpty then
        if provs.isEmpty then Except.error noProviderMessage
        else Except.ok ⟨provs, provs⟩
      else Except.ok ⟨provs, l⟩
  | none =>
      if provs.isEmpty then Except.error noProviderMessage
      else Except.ok ⟨provs, provs⟩

/-! ## Concrete instances used by witnesses and counterexamples -/

/-- A fresh monitor: no failures, nothing disabled, defaults 3 and 60. -/
def monitor0 : ServiceHealthMonitor :=
  ⟨fun _ => 0, fun _ => none, 3, 60⟩

/-- A monitor with an existing failure count and an open breaker on the
openai primary key. -/
def monitorC8 : ServiceHealthMonitor :=
  ⟨fun s => if s = "openai_primary" then 5 else 2,
   fun s => if s = "openai_primary" then some 100 else none, 3, 60⟩

/-- A monitor already past the failure threshold on the openai primary key. -/
def monitorC10 : ServiceHealthMonitor :=
  ⟨fun s => if s = "openai_primary" then 5 else 0,
   fun s => if s = "openai_primary" then some 60 else none, 3, 60⟩

/-- Three providers, all keys registered, the first primary succeeding. -/
def svcC1 : StableLLMService :=
  { service_order := ["openai", "anthropic", "gemini"],
    services := fun _ => true,
    behavior := fun k =>
      if k = "openai_primary"
        then CallOutcome.success ⟨"ok", "openai", "gpt-4o", some "stop"⟩
        else CallOutcome.failure "boom",
    service_timeout := 10 }

/-- One provider whose primary adapter call times out; the fallback key is
not registered. -/
def svcC3 : StableLLMService :=
  { service_order := ["openai"],
    services := fun k => k == "openai_primary",
    behavior := fun _ => CallOutcome.timeout,
    service_timeout := 10 }

/-- One provider with both keys registered and every dispatch failing. -/
def svcC4 : StableLLMService :=
  { service_order := ["openai"],
    services := fun _ => true,
    behavior := fun _ => CallOutcome.failure "boom",
    service_timeout := 10 }

/-- One provider where only the fallback key is registered and its dispatch
fails with a rate-limit message. -/
def svcC6 : StableLLMService :=
  { service_order := ["openai"],
    services := fun k => k == "openai_fallback",
    behavior := fun _ => CallOutcome.failure "Rate limit exceeded",
    service_timeout := 10 }

/-- One provider whose primary dispatch fails with a rate-limit message. -/
def svcC6w : StableLLMService :=
  { service_order := ["openai"],
    services := fun k => k == "openai_primary",
    behavior := fun _ => CallOutcome.failure "429 Too Many Requests",
    service_timeout := 10 }

/-- No credential anywhere, but an explicit non-empty service order. -/
def argsC7 : InitArgs :=
  { openai_api_key := none, anthropic_api_key := none, gemini_api_key := none,
    env := fun _ => none, service_order := some ["openai"] }

/-! ## Helper lemmas about the health monitor -/

theorem record_failure_counts_self (m : ServiceHealthMonitor) (now : ℚ) (key : String) :
    (record_failure m now key).failure_counts key = m.failure_counts key + 1 := by
  simp [record_failure]

theorem record_failure_threshold (m : ServiceHealthMonitor) (now : ℚ) (key : String) :
    (record_failure m now key).failure_threshold = m.failure_threshold := rfl

theorem record_failure_cool_down (m : ServiceHealthMonitor) (now : ℚ) (key : String) :
    (record_failure m now key).cool_down_period = m.cool_down_period := rfl

theorem is_available_eq_of_some {m : ServiceHealthMonitor} {key : String} {t : ℚ} (now : ℚ)
    (h : m.disabled_until key = some t) :
    is_available m now key =
      if t < now then
        (true,
          { m with
            disabled_until := fun s => if s = key then none else m.disabled_until s,
            failure_counts := fun s => if s = key then 0 else m.failure_counts s })
      else (false, m) := by
  unfold is_available
  rw [h]

theorem record_failures_trip (key : String) :
    ∀ (times : List ℚ) (m : ServiceHealthMonitor) (tl : ℚ),
      times.getLast? = some tl →
      m.failure_counts key + times.length = m.failure_threshold →
      (record_failures m key times).disabled_until key = some (tl + m.cool_down_period) := by
  intro times
  induction times with
  | nil => intro m tl h _; simp at h
  | cons t ts ih =>
      intro m tl hlast hcount
      cases ts with
      | nil =>
          have htl : t = tl := by simpa using hlast
          subst htl
          show (record_failure m t key).disabled_until key = _
          have hth : m.failure_threshold ≤ m.failure_counts key + 1 := by
            simp at hcount; omega
          simp [record_failure, if_pos hth]
      | cons t2 ts2 =>
          show (record_failures (record_failure m t key) key (t2 :: ts2)).disabled_until key = _
          exact ih (record_failure m t key) tl
            (by simpa [List.getLast?_cons_cons] using hlast)
            (by
              rw [record_failure_counts_self, record_failure_threshold]
              simp [List.length_cons] at hcount ⊢
              omega)

/-! ## Claim C2: breaker trips after threshold failures, auto-recovers strictly
after the cool-down expiry -/

/-- Claim C2: after failure_threshold consecutive record_failure calls with no
intervening record_success, is_available returns false, and returns true
exactly when the current time strictly exceeds the recorded disabled_until
timestamp (last failure time plus cool_down_period); at that point the check
itself clears the disabled state and resets the failure counter to 0. -/
theorem claim_breaker_trip_and_auto_recovery
    (m : ServiceHealthMonitor) (key : String) (times : List ℚ) (tl : ℚ)
    (h0 : m.failure_counts key = 0)
    (hlen : times.length = m.failure_threshold)
    (_hpos : 0 < m.failure_threshold)
    (hlast : times.getLast? = some tl) :
    (record_failures m key times).disabled_until key = some (tl + m.cool_down_period) ∧
    ∀ now : ℚ,
      ((is_available (record_failures m key times) now key).1 = true ↔
          tl + m.cool_down_period < now) ∧
      (tl + m.cool_down_period < now →
        (is_available (record_failures m key times) now key).2.failure_counts key = 0 ∧
        (is_available (record_failures m key times) now key).2.disabled_until key = none) := by
  have hd := record_failures_trip key times m tl hlast (by omega)
  refine ⟨hd, fun now => ?_⟩
  rw [is_available_eq_of_some now hd]
  constructor
  · constructor
    · intro htrue
      by_contra hnot
      rw [if_neg hnot] at htrue
      simp at htrue
    · intro hlt
      rw [if_pos hlt]
  · intro hlt
    rw [if_pos hlt]
    exact ⟨by simp, by simp⟩

/-- Witness for claim C2: a fresh monitor with threshold 3 and cool-down 60,
three failures at times 1, 2 and 5; the key is still disabled at time 65 and
available again at time 66, with the counter reset to 0. -/
theorem claim_breaker_trip_and_auto_recovery_witness :
    (is_available (record_failures monitor0 "openai_primary" [1, 2, 5]) 66 "openai_primary").1
        = true ∧
    (is_available (record_failures monitor0 "openai_primary" [1, 2, 5]) 65 "openai_primary").1
        = false ∧
    (is_available (record_failures monitor0 "openai_primary" [1, 2, 5]) 66
        "openai_primary").2.failure_counts "openai_primary" = 0 := by
  have h := claim_breaker_trip_and_auto_recovery monitor0 "openai_primary" [1, 2, 5] 5
    rfl (by decide) (by decide) rfl
  refine ⟨((h.2 66).1).mpr (by norm_num [monitor0]), ?_,
    ((h.2 66).2 (by norm_num [monitor0])).1⟩
  have hnot : ¬ ((5 : ℚ) + monitor0.cool_down_period < 65) := by norm_num [monitor0]
  exact Bool.eq_false_iff.mpr (fun ht => hnot (((h.2 65).1).mp ht))

/-! ## Claim C8: record_success frame conditions -/

/-- Claim C8: record_success resets the failure counter of the given key to 0,
leaves every disabled_until entry unchanged (including an open breaker on the
same key), leaves the counters of all other keys unchanged, and is total. -/
theorem claim_record_success_frame (m : ServiceHealthMonitor) (key : String) :
    (record_success m key).failure_counts key = 0 ∧
    (∀ k, (record_success m key).disabled_until k = m.disabled_until k) ∧
    (∀ k, k ≠ key → (record_success m key).failure_counts k = m.failure_counts k) ∧
    (record_success m key).failure_threshold = m.failure_threshold ∧
    (record_success m key).cool_down_period = m.cool_down_period := by
  exact ⟨by simp [record_success], fun k => rfl,
    fun k hk => by simp [record_success, hk], rfl, rfl⟩

/-- Witness for claim C8: a monitor whose openai primary key is disabled with
count 5; record_success zeroes that counter, keeps the disabled entry, and
leaves the other key at count 2. -/
theorem claim_record_success_frame_witness :
    (record_success monitorC8 "openai_primary").failure_counts "openai_primary" = 0 ∧
    (record_success monitorC8 "openai_primary").disabled_until "openai_primary" = some 100 ∧
    (record_success monitorC8 "openai_primary").failure_counts "anthropic_primary" = 2 := by
  obtain ⟨h1, h2, h3, _, _⟩ := claim_record_success_frame monitorC8 "openai_primary"
  exact ⟨h1, (h2 "openai_primary").trans (by decide),
    (h3 "anthropic_primary" (by decide)).trans (by decide)⟩

/-! ## Claim C9: the rate-limit classifier -/

/-- Claim C9: the classifier returns true exactly when the lower-cased
message contains one of the seven fixed keywords as a substring. -/
theorem claim_rate_limit_classifier_iff (msg : String) :
    _is_rate_limited msg = true ↔
      (containsSubstr (lowerStr msg) "rate limit" = true ∨
       containsSubstr (lowerStr msg) "ratelimit" = true ∨
       containsSubstr (lowerStr msg) "too many requests" = true ∨
       containsSubstr (lowerStr msg) "429" = true ∨
       containsSubstr (lowerStr msg) "quota exceeded" = true ∨
       containsSubstr (lowerStr msg) "capacity" = true ∨
       containsSubstr (lowerStr msg) "throttle" = true) := by
  simp [_is_rate_limited, rate_limit_keywords, List.any_cons, List.any_nil,
    Bool.or_eq_true, or_assoc]

/-! ## Claim C10: every at-or-above-threshold failure pushes the window -/

/-- Claim C10: any record_failure call that leaves the counter at or above
the threshold (not only the one reaching it first) sets disabled_until to
the current time plus the cool-down period. -/
theorem claim_refailure_extends_disable_window
    (m : ServiceHealthMonitor) (now : ℚ) (key : String)
    (h : m.failure_threshold ≤ m.failure_counts key + 1) :
    (record_failure m now key).failure_counts key = m.failure_counts key + 1 ∧
    (record_failure m now key).disabled_until key = some (now + m.cool_down_period) := by
  exact ⟨record_failure_counts_self m now key, by simp [record_failure, if_pos h]⟩

/-- Witness for claim C10: a key already at count 5 with threshold 3 and an
open window until 60; a further failure at time 100 pushes the window to 160. -/
theorem claim_refailure_extends_disable_window_witness :
    (record_failure monitorC10 100 "openai_primary").failure_counts "openai_primary" = 6 ∧
    (record_failure monitorC10 100 "openai_primary").disabled_until "openai_primary"
      = some 160 := by
  obtain ⟨h1, h2⟩ := claim_refailure_extends_disable_window monitorC10 100 "openai_primary"
    (by decide)
  exact ⟨h1.trans (by decide), h2.trans (by norm_num [monitorC10])⟩

/-! ## Helper lemmas about keys and the two passes -/

theorem string_append_cancel {a b c : String} (h : a ++ c = b ++ c) : a = b := by
  cases a with
  | mk da =>
    cases b with
    | mk db =>
      cases c with
      | mk dc =>
        have hd : da ++ dc = db ++ dc := by
          have h2 := congrArg String.data h
          simpa [String.data] using h2
        exact congrArg String.mk (List.append_cancel_right hd)

theorem keyName_inj {p q : String} {primary : Bool}
    (h : keyName p primary = keyName q primary) : p = q := by
  unfold keyName at h
  exact string_append_cancel h

theorem keyName_true_ne_false (p q : String) : keyName p true ≠ keyName q false := by
  intro h
  simp only [keyName, if_true, if_false] at h
  have hd : p.data ++ "_primary".data = q.data ++ "_fallback".data := by
    cases p; cases q
    simpa [String.data] using congrArg String.data h
  have h1 : (p.data ++ "_primary".data).getLast? = some 'y' := by
    rw [List.getLast?_append_of_ne_nil _ (by decide)]; decide
  have h2 : (q.data ++ "_fallback".data).getLast? = some 'k' := by
    rw [List.getLast?_append_of_ne_nil _ (by decide)]; decide
  rw [hd, h2] at h1
  exact absurd h1 (by decide)

theorem not_mem_passKeys {p : String} {primary : Bool} {ps : List String}
    (hp : p ∉ ps) : keyName p primary ∉ passKeys primary ps := by
  intro hmem
  rw [passKeys, List.mem_map] at hmem
  obtain ⟨q, hq, hEq⟩ := hmem
  exact hp (keyName_inj hEq ▸ hq)

theorem passKeys_nodup (primary : Bool) {ps : List String} (h : ps.Nodup) :
    (passKeys primary ps).Nodup :=
  List.Nodup.map (fun _ _ hEq => keyName_inj hEq) h

theorem passKeys_disjoint {l1 l2 : List String} :
    ∀ a, a ∈ passKeys true l1 → a ∈ passKeys false l2 → False := by
  intro a h1 h2
  rw [passKeys, List.mem_map] at h1 h2
  obtain ⟨p, _, hp⟩ := h1
  obtain ⟨q, _, hq⟩ := h2
  exact keyName_true_ne_false p q (hp.trans hq.symm)

theorem allKeys_nodup {ps : List String} (h : ps.Nodup) : (allKeys ps).Nodup :=
  List.Nodup.append (passKeys_nodup true h) (passKeys_nodup false h)
    (fun _ ha hb => passKeys_disjoint _ ha hb)

theorem call_with_timeout_fst_ok {svc : StableLLMService} {m : ServiceHealthMonitor}
    {now : ℚ} {name : String} {r : Reply}
    (h : (_call_with_timeout svc m now name).1 = Except.ok r) :
    svc.behavior name = CallOutcome.success r := by
  unfold _call_with_timeout at h
  cases hb : svc.behavior name <;> rw [hb] at h <;> simp_all

theorem call_with_timeout_fst_error {svc : StableLLMService} {m : ServiceHealthMonitor}
    {now : ℚ} {name : String} {msg : String}
    (h : (_call_with_timeout svc m now name).1 = Except.error msg) :
    ∀ r : Reply, svc.behavior name ≠ CallOutcome.success r := by
  intro r hr
  unfold _call_with_timeout at h
  rw [hr] at h
  simp at h

theorem runPass_inl_spec (svc : StableLLMService) (primary : Bool) (now : ℚ) :
    ∀ (ps : List String) (s s1 : LoopState), ps.Nodup →
      runPass svc primary now ps s = Sum.inl s1 →
      ∃ es cs,
        s1.considered = s.considered ++ passKeys primary ps ∧
        s1.errors = s.errors ++ es ∧
        s1.calls = s.calls ++ cs ∧
        List.Sublist (es.map AttemptError.service) (passKeys primary ps) ∧
        List.Sublist cs (es.map AttemptError.service) ∧
        successFree svc cs ∧
        entriesTagged primary es cs := by
  intro ps
  induction ps with
  | nil =>
      intro s s1 _ h
      simp only [runPass] at h
      injection h with h
      subst h
      exact ⟨[], [], by simp [passKeys], by simp, by simp,
        by simp [passKeys], by simp, by simp [successFree], by simp [entriesTagged]⟩
  | cons p rest ih =>
      intro s s1 hnd h
      have hp : p ∉ rest := (List.nodup_cons.mp hnd).1
      have hrest : rest.Nodup := (List.nodup_cons.mp hnd).2
      have hkey : keyName p primary ∉ passKeys primary rest := not_mem_passKeys hp
      simp only [runPass] at h
      split at h
      next hav =>
        obtain ⟨es, cs, hcon, herr, hcal, hes, hcs, hfree, htag⟩ := ih _ _ hrest h
        refine ⟨⟨keyName p primary, disabledMessage, none⟩ :: es, cs,
          ?_, ?_, ?_, ?_, ?_, hfree, ?_⟩
        · rw [hcon]; simp [passKeys]
        · rw [herr]; simp
        · rw [hcal]
        · simpa [passKeys] using List.Sublist.cons₂ (keyName p primary) hes
        · exact hcs.trans (List.Sublist.cons _ (List.Sublist.refl _))
        · intro e he
          rcases List.mem_cons.mp he with rfl | he2
          · exact Or.inr ⟨fun hc => hkey (hes.subset (hcs.subset hc)), rfl, rfl⟩
          · exact htag e he2
      next hav =>
        split at h
        next hserv =>
          obtain ⟨es, cs, hcon, herr, hcal, hes, hcs, hfree, htag⟩ := ih _ _ hrest h
          refine ⟨es, cs, ?_, herr, hcal, ?_, hcs, hfree, htag⟩
          · rw [hcon]; simp [passKeys]
          · simpa [passKeys] using List.Sublist.cons (keyName p primary) hes
        next hserv =>
          split at h
          next r0 heq => exact Sum.noConfusion h
          next msg heq =>
            obtain ⟨es, cs, hcon, herr, hcal, hes, hcs, hfree, htag⟩ := ih _ _ hrest h
            refine ⟨attemptEntry primary (keyName p primary) msg :: es,
              keyName p primary :: cs, ?_, ?_, ?_, ?_, ?_, ?_, ?_⟩
            · rw [hcon]; simp [passKeys]
            · rw [herr]; simp
            · rw [hcal]; simp
            · simpa [passKeys, attemptEntry] using
                List.Sublist.cons₂ (keyName p primary) hes
            · simpa [attemptEntry] using List.Sublist.cons₂ (keyName p primary) hcs
            · intro k hk r
              rcases List.mem_cons.mp hk with rfl | hk2
              · exact call_with_timeout_fst_error heq r
              · exact hfree k hk2 r
            · intro e he
              rcases List.mem_cons.mp he with rfl | he2
              · exact Or.inl ⟨List.mem_cons_self _ _, rfl⟩
              · rcases htag e he2 with ⟨hin, hflag⟩ | ⟨hnin, hnone, hmsg⟩
                · exact Or.inl ⟨List.mem_cons_of_mem _ hin, hflag⟩
                · refine Or.inr ⟨?_, hnone, hmsg⟩
                  intro hc
                  rcases List.mem_cons.mp hc with hEq | hc2
                  · exact hkey (hEq ▸ hes.subset (List.mem_map_of_mem AttemptError.service he2))
                  · exact hnin hc2

theorem passKeys_cons (primary : Bool) (p : String) (rest : List String) :
    passKeys primary (p :: rest) = keyName p primary :: passKeys primary rest := rfl

theorem runPass_inr_spec (svc : StableLLMService) (primary : Bool) (now : ℚ) :
    ∀ (ps : List String) (s : LoopState) (r : Reply) (s1 : LoopState), ps.Nodup →
      runPass svc primary now ps s = Sum.inr (r, s1) →
      ∃ pref es cs k,
        (pref ++ [k]) <+: passKeys primary ps ∧
        s1.considered = s.considered ++ (pref ++ [k]) ∧
        s1.errors = s.errors ++ es ∧
        s1.calls = s.calls ++ (cs ++ [k]) ∧
        List.Sublist (es.map AttemptError.service) pref ∧
        List.Sublist cs (es.map AttemptError.service) ∧
        successFree svc cs ∧
        entriesTagged primary es cs ∧
        svc.behavior k = CallOutcome.success r ∧
        k ∉ pref ∧ k ∈ passKeys primary ps := by
  intro ps
  induction ps with
  | nil =>
      intro s r s1 _ h
      simp only [runPass] at h
      exact Sum.noConfusion h
  | cons p rest ih =>
      intro s r s1 hnd h
      have hp : p ∉ rest := (List.nodup_cons.mp hnd).1
      have hrest : rest.Nodup := (List.nodup_cons.mp hnd).2
      have hkey : keyName p primary ∉ passKeys primary rest := not_mem_passKeys hp
      simp only [runPass] at h
      split at h
      next hav =>
        obtain ⟨pref, es, cs, k, hpre, hcon, herr, hcal, hes, hcs, hfree, htag, hbeh, hknp, hkin⟩ :=
          ih _ _ _ hrest h
        obtain ⟨t, ht⟩ := hpre
        have hprefsub : ∀ x ∈ pref, x ∈ passKeys primary rest := fun x hx =>
          (List.IsPrefix.sublist ⟨t, ht⟩).subset (List.mem_append_left _ hx)
        refine ⟨keyName p primary :: pref,
          ⟨keyName p primary, disabledMessage, none⟩ :: es, cs, k,
          ⟨t, by rw [passKeys_cons, ← ht]; simp⟩, ?_, ?_, hcal, ?_, ?_, hfree, ?_, hbeh, ?_, ?_⟩
        · rw [hcon]; simp
        · rw [herr]; simp
        · simpa using List.Sublist.cons₂ (keyName p primary) hes
        · exact hcs.trans (List.Sublist.cons _ (List.Sublist.refl _))
        · intro e he
          rcases List.mem_cons.mp he with rfl | he2
          · exact Or.inr ⟨fun hc => hkey (hprefsub _ (hes.subset (hcs.subset hc))), rfl, rfl⟩
          · exact htag e he2
        · intro hc
          rcases List.mem_cons.mp hc with hEq | hc2
          · exact hkey (hEq ▸ hkin)
          · exact hknp hc2
        · rw [passKeys_cons]; exact List.mem_cons_of_mem _ hkin
      next hav =>
        split at h
        next hserv =>
          obtain ⟨pref, es, cs, k, hpre, hcon, herr, hcal, hes, hcs, hfree, htag, hbeh, hknp, hkin⟩ :=
            ih _ _ _ hrest h
          obtain ⟨t, ht⟩ := hpre
          refine ⟨keyName p primary :: pref, es, cs, k,
            ⟨t, by rw [passKeys_cons, ← ht]; simp⟩, ?_, herr, hcal,
            List.Sublist.cons _ hes, hcs, hfree, htag, hbeh, ?_, ?_⟩
          · rw [hcon]; simp
          · intro hc
            rcases List.mem_cons.mp hc with hEq | hc2
            · exact hkey (hEq ▸ hkin)
            · exact hknp hc2
          · rw [passKeys_cons]; exact List.mem_cons_of_mem _ hkin
        next hserv =>
          split at h
          next r0 heq =>
            rw [Sum.inr.injEq, Prod.mk.injEq] at h
            obtain ⟨rfl, rfl⟩ := h
            refine ⟨[], [], [], keyName p primary,
              ⟨passKeys primary rest, by rw [passKeys_cons]; simp⟩,
              by simp, by simp, by simp, by simp, by simp,
              by simp [successFree], by simp [entriesTagged],
              call_with_timeout_fst_ok heq, by simp, ?_⟩
            rw [passKeys_cons]; exact List.mem_cons_self _ _
          next msg heq =>
            obtain ⟨pref, es, cs, k, hpre, hcon, herr, hcal, hes, hcs, hfree, htag, hbeh, hknp, hkin⟩ :=
              ih _ _ _ hrest h
            obtain ⟨t, ht⟩ := hpre
            have hprefsub : ∀ x ∈ pref, x ∈ passKeys primary rest := fun x hx =>
              (List.IsPrefix.sublist ⟨t, ht⟩).subset (List.mem_append_left _ hx)
            refine ⟨keyName p primary :: pref,
              attemptEntry primary (keyName p primary) msg :: es,
              keyName p primary :: cs, k,
              ⟨t, by rw [passKeys_cons, ← ht]; simp⟩, ?_, ?_, ?_, ?_, ?_, ?_, ?_, hbeh, ?_, ?_⟩
            · rw [hcon]; simp
            · rw [herr]; simp
            · rw [hcal]; simp
            · simpa [attemptEntry] using List.Sublist.cons₂ (keyName p primary) hes
            · exact List.Sublist.cons₂ _ hcs
            · intro x hx rx
              rcases List.mem_cons.mp hx with rfl | hx2
              · exact call_with_timeout_fst_error heq rx
              · exact hfree x hx2 rx
            · intro e he
              rcases List.mem_cons.mp he with rfl | he2
              · exact Or.inl ⟨List.mem_cons_self _ _, rfl⟩
              · rcases htag e he2 with ⟨hin, hflag⟩ | ⟨hnin, hnone, hmsg⟩
                · exact Or.inl ⟨List.mem_cons_of_mem _ hin, hflag⟩
                · refine Or.inr ⟨?_, hnone, hmsg⟩
                  intro hc
                  rcases List.mem_cons.mp hc with hEq | hc2
                  · exact hkey (hEq ▸ hprefsub _
                      (hes.subset (List.mem_map_of_mem AttemptError.service he2)))
                  · exact hnin hc2
            · intro hc
              rcases List.mem_cons.mp hc with hEq | hc2
              · exact hkey (hEq ▸ hkin)
              · exact hknp hc2
            · rw [passKeys_cons]; exact List.mem_cons_of_mem _ hkin

theorem call_service_master (svc : StableLLMService) (m : ServiceHealthMonitor) (now : ℚ)
    (hnd : svc.service_order.Nodup) :
    ((_call_service svc m now).2.considered <+: allKeys svc.service_order) ∧
    List.Sublist (_call_service svc m now).2.calls (_call_service svc m now).2.considered ∧
    ∃ es1 es2 cs1 cs2 ksuf,
      (_call_service svc m now).2.errors = es1 ++ es2 ∧
      (_call_service svc m now).2.calls = cs1 ++ (cs2 ++ ksuf) ∧
      List.Sublist (es1.map AttemptError.service) (passKeys true svc.service_order) ∧
      List.Sublist (es2.map AttemptError.service) (passKeys false svc.service_order) ∧
      List.Sublist cs1 (es1.map AttemptError.service) ∧
      List.Sublist cs2 (es2.map AttemptError.service) ∧
      successFree svc (cs1 ++ cs2) ∧
      entriesTagged true es1 cs1 ∧
      entriesTagged false es2 cs2 ∧
      ((∃ r k, ksuf = [k] ∧ (_call_service svc m now).1 = CallResult.reply r ∧
          svc.behavior k = CallOutcome.success r ∧
          (_call_service svc m now).2.considered.getLast? = some k ∧
          k ∉ es1.map AttemptError.service ∧ k ∉ es2.map AttemptError.service) ∨
       (ksuf = [] ∧
          (_call_service svc m now).1 =
            CallResult.aggregated allFailedMessage ((_call_service svc m now).2.errors)
              ("服务调用失败: " ++ allFailedMessage))) := by
  rcases h1 : runPass svc true now svc.service_order ⟨m, [], [], []⟩ with s1 | ⟨r, sR⟩
  · rcases h2 : runPass svc false now svc.service_order s1 with s2 | ⟨r, sR⟩
    · obtain ⟨es1, cs1, hcon1, herr1, hcal1, hm1, hc1, hf1, ht1⟩ :=
        runPass_inl_spec svc true now _ _ _ hnd h1
      obtain ⟨es2, cs2, hcon2, herr2, hcal2, hm2, hc2, hf2, ht2⟩ :=
        runPass_inl_spec svc false now _ _ _ hnd h2
      have hh1 : s1.considered = passKeys true svc.service_order := by simpa using hcon1
      have he1 : s1.errors = es1 := by simpa using herr1
      have hl1 : s1.calls = cs1 := by simpa using hcal1
      have hh2 : s2.considered
          = passKeys true svc.service_order ++ passKeys false svc.service_order := by
        rw [hcon2, hh1]
      have hE : s2.errors = es1 ++ es2 := by rw [herr2, he1]
      have hC : s2.calls = cs1 ++ (cs2 ++ []) := by rw [hcal2, hl1]; simp
      simp only [_call_service, h1, h2]
      refine ⟨?_, ?_, es1, es2, cs1, cs2, [], hE, hC, hm1, hm2, hc1, hc2, ?_, ht1, ht2,
        Or.inr ⟨by trivial, by trivial⟩⟩
      · rw [hh2]; exact List.prefix_rfl
      · rw [hC, hh2]
        simp only [List.append_nil]
        exact List.Sublist.append (hc1.trans hm1) (hc2.trans hm2)
      · intro x hx rx
        rcases List.mem_append.mp hx with hx1 | hx2
        · exact hf1 x hx1 rx
        · exact hf2 x hx2 rx
    · obtain ⟨es1, cs1, hcon1, herr1, hcal1, hm1, hc1, hf1, ht1⟩ :=
        runPass_inl_spec svc true now _ _ _ hnd h1
      obtain ⟨pref, es2, cs2, k, hpre, hconR, herrR, hcalR, hes2, hcs2, hfree2, htag2,
        hbeh, hknp, hkin⟩ := runPass_inr_spec svc false now _ _ _ _ hnd h2
      have hh1 : s1.considered = passKeys true svc.service_order := by simpa using hcon1
      have he1 : s1.errors = es1 := by simpa using herr1
      have hl1 : s1.calls = cs1 := by simpa using hcal1
      have hconR2 : sR.considered
          = passKeys true svc.service_order ++ (pref ++ [k]) := by rw [hconR, hh1]
      have hE : sR.errors = es1 ++ es2 := by rw [herrR, he1]
      have hC : sR.calls = cs1 ++ (cs2 ++ [k]) := by rw [hcalR, hl1]
      have hprefsub : List.Sublist pref (passKeys false svc.service_order) :=
        (List.sublist_append_left pref [k]).trans hpre.sublist
      simp only [_call_service, h1, h2]
      refine ⟨?_, ?_, es1, es2, cs1, cs2, [k], hE, hC, hm1, hes2.trans hprefsub, hc1, hcs2,
        ?_, ht1, htag2, Or.inl ⟨r, k, by trivial, by trivial, hbeh, ?_, ?_, ?_⟩⟩
      · obtain ⟨t, ht⟩ := hpre
        rw [hconR2]
        exact ⟨t, by rw [List.append_assoc, ht]; rfl⟩
      · rw [hC, hconR2]
        exact List.Sublist.append (hc1.trans hm1)
          (List.Sublist.append (hcs2.trans hes2) (List.Sublist.refl _))
      · intro x hx rx
        rcases List.mem_append.mp hx with hx1 | hx2
        · exact hf1 x hx1 rx
        · exact hfree2 x hx2 rx
      · rw [hconR2, ← List.append_assoc]
        exact List.getLast?_concat _
      · exact fun hc => passKeys_disjoint k (hm1.subset hc) hkin
      · exact fun hc => hknp (hes2.subset hc)
  · obtain ⟨pref, es, cs, k, hpre, hconR, herrR, hcalR, hes, hcs, hfree, htag,
      hbeh, hknp, hkin⟩ := runPass_inr_spec svc true now _ _ _ _ hnd h1
    have hh : sR.considered = pref ++ [k] := by simpa using hconR
    have hE0 : sR.errors = es := by simpa using herrR
    have hC0 : sR.calls = cs ++ [k] := by simpa using hcalR
    have hprefsub : List.Sublist pref (passKeys true svc.service_order) :=
      (List.sublist_append_left pref [k]).trans hpre.sublist
    simp only [_call_service, h1]
    refine ⟨?_, ?_, es, [], cs, [], [k], by simp [hE0], by simp [hC0],
      hes.trans hprefsub, by simp, hcs, by simp, ?_, htag, ?_,
      Or.inl ⟨r, k, by trivial, by trivial, hbeh, ?_, ?_, by simp⟩⟩
    · rw [hh]
      exact hpre.trans (List.prefix_append _ _)
    · rw [hC0, hh]
      exact List.Sublist.append (hcs.trans hes) (List.Sublist.refl _)
    · intro x hx rx
      rcases List.mem_append.mp hx with hx1 | hx2
      · exact hfree x hx1 rx
      · exact absurd hx2 (List.not_mem_nil x)
    · intro e he
      exact absurd he (List.not_mem_nil e)
    · rw [hh]
      exact List.getLast?_concat _
    · exact fun hc => hknp (hes.subset hc)

/-! ## Claim C1: two-pass dispatch order and first-success-wins -/

/-- Claim C1: the keys examined by an orchestrated call form a prefix of the
primary pass over the service order followed by the fallback pass, with no
key examined or dispatched twice; dispatched keys follow that order, and the
first successful dispatch ends the call: its reply is returned, every
earlier dispatched key did not succeed, and the succeeding key is the last
key examined. The no-duplicates hypothesis is the ServiceOrder invariant of
the data model (deduplicated). -/
theorem claim_first_success_wins_dispatch_order (svc : StableLLMService)
    (m : ServiceHealthMonitor) (now : ℚ) (hnd : svc.service_order.Nodup) :
    ((_call_service svc m now).2.considered <+: allKeys svc.service_order) ∧
    (_call_service svc m now).2.considered.Nodup ∧
    List.Sublist (_call_service svc m now).2.calls (_call_service svc m now).2.considered ∧
    (_call_service svc m now).2.calls.Nodup ∧
    ∀ r : Reply, (_call_service svc m now).1 = CallResult.reply r →
      ∃ pre k, (_call_service svc m now).2.calls = pre ++ [k] ∧
        svc.behavior k = CallOutcome.success r ∧
        successFree svc pre ∧
        (_call_service svc m now).2.considered.getLast? = some k := by
  obtain ⟨hA, hB, es1, es2, cs1, cs2, ksuf, hE, hC, hm1, hm2, hc1, hc2, hfree, ht1, ht2, hfin⟩ :=
    call_service_master svc m now hnd
  have hnode : (_call_service svc m now).2.considered.Nodup :=
    (allKeys_nodup hnd).sublist hA.sublist
  refine ⟨hA, hnode, hB, hnode.sublist hB, ?_⟩
  intro r hr
  rcases hfin with ⟨r0, k, hks, hres, hbeh, hgl, hk1, hk2⟩ | ⟨hks, hres⟩
  · rw [hres] at hr
    injection hr with hrr
    subst hrr
    refine ⟨cs1 ++ cs2, k, ?_, hbeh, hfree, hgl⟩
    rw [hC, hks]
    simp [List.append_assoc]
  · rw [hres] at hr
    exact absurd hr (by simp)

/-- Witness for claim C1: three providers in order openai, anthropic, gemini,
all keys registered and healthy, the openai primary dispatch succeeding: only
that one key is dispatched. -/
theorem claim_first_success_wins_dispatch_order_witness :
    (_call_service svcC1 monitor0 0).2.calls = ["openai_primary"] ∧
    ((_call_service svcC1 monitor0 0).2.considered <+: allKeys svcC1.service_order) ∧
    (_call_service svcC1 monitor0 0).2.calls.Nodup := by
  have h := claim_first_success_wins_dispatch_order svcC1 monitor0 0 (by decide)
  exact ⟨by decide, h.1, h.2.2.2.1⟩

/-! ## Claim C4: total exhaustion returns an aggregated failure -/

/-- Claim C4: when the orchestrated call returns the aggregated-failure
value (it is returned, never raised: the dispatch function is total and
adapter or timeout failures are converted to error entries), its details
list is exactly the accumulated error list; the entry keys respect the
attempt order (a sublist of the primary-then-fallback key sequence), no key
has two entries, and every key actually dispatched has an entry. The
no-duplicates hypothesis is the ServiceOrder invariant of the data model. -/
theorem claim_aggregated_failure_details (svc : StableLLMService) (m : ServiceHealthMonitor)
    (now : ℚ) (hnd : svc.service_order.Nodup) (E : String) (D : List AttemptError) (R : String)
    (hagg : (_call_service svc m now).1 = CallResult.aggregated E D R) :
    D = (_call_service svc m now).2.errors ∧
    E = allFailedMessage ∧
    List.Sublist (D.map AttemptError.service) (allKeys svc.service_order) ∧
    (D.map AttemptError.service).Nodup ∧
    List.Sublist (_call_service svc m now).2.calls (D.map AttemptError.service) := by
  obtain ⟨hA, hB, es1, es2, cs1, cs2, ksuf, hE, hC, hm1, hm2, hc1, hc2, hfree, ht1, ht2, hfin⟩ :=
    call_service_master svc m now hnd
  rcases hfin with ⟨r0, k, hks, hres, _⟩ | ⟨hks, hres⟩
  · rw [hres] at hagg
    exact absurd hagg (by simp)
  · rw [hres] at hagg
    have hD : D = (_call_service svc m now).2.errors := by
      injection hagg with h1 h2 h3
      exact h2.symm
    have hEname : E = allFailedMessage := by
      injection hagg with h1 h2 h3
      exact h1.symm
    have hmap : List.Sublist (D.map AttemptError.service) (allKeys svc.service_order) := by
      rw [hD, hE, List.map_append]
      exact List.Sublist.append hm1 hm2
    refine ⟨hD, hEname, hmap, (allKeys_nodup hnd).sublist hmap, ?_⟩
    rw [hD, hE, hC, hks, List.map_append]
    simpa using List.Sublist.append hc1 hc2

/-- Witness for claim C4: one provider with both keys registered and every
dispatch failing; the call returns the aggregated failure with one entry per
key in attempt order, and the dispatched keys are covered by the entries. -/
theorem claim_aggregated_failure_details_witness :
    (_call_service svcC4 monitor0 0).1 =
      CallResult.aggregated allFailedMessage
        [⟨"openai_primary", "boom", some false⟩, ⟨"openai_fallback", "boom", none⟩]
        ("服务调用失败: " ++ allFailedMessage) ∧
    List.Sublist (_call_service svcC4 monitor0 0).2.calls
      ([(⟨"openai_primary", "boom", some false⟩ : AttemptError),
        ⟨"openai_fallback", "boom", none⟩].map AttemptError.service) := by
  have hagg : (_call_service svcC4 monitor0 0).1 =
      CallResult.aggregated allFailedMessage
        [⟨"openai_primary", "boom", some false⟩, ⟨"openai_fallback", "boom", none⟩]
        ("服务调用失败: " ++ allFailedMessage) := by decide
  exact ⟨hagg,
    (claim_aggregated_failure_details svcC4 monitor0 0 (by decide) _ _ _ hagg).2.2.2.2⟩

/-! ## Claim C6: the rate-limit flag on attempt errors -/

/-- Counterexample for claim C6 as stated: with only the fallback key of one
provider registered and its dispatch failing with a rate-limit message, the
appended attempt error carries no is_rate_limited flag at all, although the
classifier returns true on the message. -/
theorem claim_rate_limit_flag_counterexample :
    (_call_service svcC6 monitor0 0).2.errors =
      [⟨"openai_fallback", "Rate limit exceeded", none⟩] ∧
    _is_rate_limited "Rate limit exceeded" = true := by
  exact ⟨by decide, by decide⟩

/-- Claim C6 (amended): for every failed provider attempt — an entry whose
key was actually dispatched, hence appears in the call trace — the error
entry appended in the primary pass carries the is_rate_limited flag computed
by the classifier from the failure message, while the error entry appended
in the fallback pass omits the flag. -/
theorem claim_rate_limit_flag_primary_pass_only (svc : StableLLMService)
    (m : ServiceHealthMonitor) (now : ℚ) (hnd : svc.service_order.Nodup) :
    ∀ e ∈ (_call_service svc m now).2.errors,
      e.service ∈ (_call_service svc m now).2.calls →
      (e.service ∈ passKeys true svc.service_order →
        e.is_rate_limited = some (_is_rate_limited e.error)) ∧
      (e.service ∈ passKeys false svc.service_order →
        e.is_rate_limited = none) := by
  obtain ⟨hA, hB, es1, es2, cs1, cs2, ksuf, hE, hC, hm1, hm2, hc1, hc2, hfree, ht1, ht2, hfin⟩ :=
    call_service_master svc m now hnd
  intro e he hecall
  rw [hE] at he
  rw [hC] at hecall
  rcases List.mem_append.mp he with he1 | he2
  · have hserv1 : e.service ∈ passKeys true svc.service_order :=
      hm1.subset (List.mem_map_of_mem AttemptError.service he1)
    constructor
    · intro _
      rcases ht1 e he1 with ⟨hin, hflag⟩ | ⟨hnin, hnone, hmsg⟩
      · simpa using hflag
      · exfalso
        rcases List.mem_append.mp hecall with hcc1 | hcc2
        · exact hnin hcc1
        · rcases List.mem_append.mp hcc2 with hcc2a | hcc2b
          · exact passKeys_disjoint _ hserv1 (hm2.subset (hc2.subset hcc2a))
          · rcases hfin with ⟨r0, k, hks, _, _, _, hk1, hk2⟩ | ⟨hks, _⟩
            · rw [hks] at hcc2b
              have hek : e.service = k := by simpa using hcc2b
              exact hk1 (hek ▸ List.mem_map_of_mem AttemptError.service he1)
            · rw [hks] at hcc2b
              exact absurd hcc2b (List.not_mem_nil _)
    · intro hserv2
      exact absurd hserv2 (fun hx => passKeys_disjoint _ hserv1 hx)
  · have hserv2 : e.service ∈ passKeys false svc.service_order :=
      hm2.subset (List.mem_map_of_mem AttemptError.service he2)
    constructor
    · intro hserv1
      exact absurd hserv1 (fun hx => passKeys_disjoint _ hx hserv2)
    · intro _
      rcases ht2 e he2 with ⟨hin, hflag⟩ | ⟨hnin, hnone, hmsg⟩
      · simpa using hflag
      · exact hnone

/-- Witness for amended claim C6: a primary-pass dispatch failing with a
rate-limit message produces an entry whose flag is the classifier output. -/
theorem claim_rate_limit_flag_primary_pass_only_witness :
    (AttemptError.mk "openai_primary" "429 Too Many Requests"
        (some true)).is_rate_limited = some (_is_rate_limited "429 Too Many Requests") := by
  have h := claim_rate_limit_flag_primary_pass_only svcC6w monitor0 0 (by decide)
    ⟨"openai_primary", "429 Too Many Requests", some true⟩ (by decide) (by decide)
  exact h.1 (by decide)

/-! ## Claim C3: failure recording on a timed-out dispatch -/

/-- Claim C3 evaluation (code bug): with one provider whose primary dispatch
times out, the orchestrated call produces exactly one attempt error for that
key, whose message is the timeout message, but the consecutive-failure
counter of the key rises by 2, not 1: _call_with_timeout records a failure
on timeout and the exception handler of _call_service records a second one
for the same failed attempt. -/
theorem claim_timeout_single_failure_record_evaluation :
    (_call_service svcC3 monitor0 0).2.monitor.failure_counts "openai_primary" = 2 ∧
    ((_call_service svcC3 monitor0 0).2.errors).map AttemptError.service
      = ["openai_primary"] ∧
    ((_call_service svcC3 monitor0 0).2.errors).map AttemptError.error
      = [timeoutMessage "openai_primary" 10] := by
  refine ⟨by decide, by decide, ?_⟩
  rfl

/-! ## Claim C7: construction with zero configured providers -/

/-- Counterexample for claim C7 as stated: with no credential supplied
anywhere but an explicit non-empty service_order argument, construction
succeeds with zero configured providers — _default_service_order, the only
place that raises, is never called. -/
theorem claim_construction_zero_provider_counterexample :
    construct argsC7 = Except.ok ⟨[], ["openai"]⟩ ∧
    configuredProviders argsC7 = [] := by
  exact ⟨rfl, rfl⟩

/-- Claim C7 (amended): construction fails with the no-provider error
exactly when the explicit service_order argument is falsy (absent or empty)
and no provider credential is configured; whenever the explicit
service_order is truthy, construction succeeds even with zero configured
providers. -/
theorem claim_construction_requires_provider_iff (args : InitArgs) :
    (construct args = Except.error noProviderMessage ↔
      pyTruthyList args.service_order = false ∧ configuredProviders args = []) ∧
    (pyTruthyList args.service_order = true →
      ∃ c, construct args = Except.ok c ∧ c.providers = configuredProviders args) := by
  obtain ⟨o, a, g, env, so⟩ := args
  cases so with
  | none =>
      constructor
      · by_cases hp : configuredProviders ⟨o, a, g, env, none⟩ = []
        · simp [construct, pyTruthyList, List.isEmpty_iff, hp]
        · simp [construct, pyTruthyList, List.isEmpty_iff, hp]
      · intro h
        simp [pyTruthyList] at h
  | some l =>
      cases l with
      | nil =>
          constructor
          · by_cases hp : configuredProviders ⟨o, a, g, env, some []⟩ = []
            · simp [construct, pyTruthyList, List.isEmpty_iff, hp]
            · simp [construct, pyTruthyList, List.isEmpty_iff, hp]
          · intro h
            simp [pyTruthyList] at h
      | cons x xs =>
          constructor
          · simp [construct, pyTruthyList]
          · intro _
            exact ⟨⟨configuredProviders ⟨o, a, g, env, some (x :: xs)⟩, x :: xs⟩,
              by simp [construct], rfl⟩

/-- Witness for amended claim C7: the zero-provider arguments with an
explicit service order construct successfully. -/
theorem claim_construction_requires_provider_iff_witness :
    ∃ c, construct argsC7 = Except.ok c ∧ c.providers = configuredProviders argsC7 := by
  exact (claim_construction_requires_provider_iff argsC7).2 (by decide)
